/-
Verification of the PAROS data-download tooling: a shallow embedding of
the query construction, result normalization and export dispatch logic
of get-paros-data.py, together with theorems settling the specification
claims about that logic.
-/
import Mathlib

namespace Paros

/-- days_from_civil (proleptic Gregorian calendar): days since 1970-01-01
for a civil date, as used by Python's datetime arithmetic. -/
def daysFromCivil (y m d : Int) : Int :=
  let y1 := if m ≤ 2 then y - 1 else y
  let era := Int.fdiv y1 400
  let yoe := y1 - era * 400
  let mp := if m > 2 then m - 3 else m + 9
  let doy := (153 * mp + 2) / 5 + d - 1
  let doe := yoe * 365 + yoe / 4 - yoe / 100 + doy
  era * 146097 + doe - 719468

/-- civil_from_days: inverse of daysFromCivil. -/
def civilFromDays (z : Int) : Int × Int × Int :=
  let z1 := z + 719468
  let era := Int.fdiv z1 146097
  let doe := z1 - era * 146097
  let yoe := (doe - doe / 1460 + doe / 36524 - doe / 146096) / 365
  let y := yoe + era * 400
  let doy := doe - (365 * yoe + yoe / 4 - yoe / 100)
  let mp := (5 * doy + 2) / 153
  let d := doy - (153 * mp + 2) / 5 + 1
  let m := if mp < 10 then mp + 3 else mp - 9
  (if m ≤ 2 then y + 1 else y, m, d)

/-- A cell of a pandas dataframe as used by this script: string-valued
tag columns, tz-aware timestamps (the absolute instant in UTC seconds
plus the attached fixed utc-offset in seconds, standing for the zone),
naive timestamps (wall-clock seconds since 1970-01-01 in an unstated
zone), and numeric measurement values (exact rationals standing for the
numeric dtypes). -/
inductive Cell where
  | str : String → Cell
  | aware : Int → Int → Cell
  | naive : Int → Cell
  | num : ℚ → Cell
  deriving DecidableEq

/-- Python str() of a cell, as used by the identifier f-string; the
identifier columns of this script hold strings. -/
def Cell.pyStr : Cell → String
  | .str s => s
  | .aware u o => toString u ++ "+" ++ toString o
  | .naive n => toString n
  | .num q => toString q.num ++ "/" ++ toString q.den

/-- A dataframe, column-oriented: the column list is in pandas column
order and each column carries its cells in row order. -/
structure DataFrame where
  cols : List (String × List Cell)
  deriving DecidableEq

def DataFrame.hasCol (df : DataFrame) (n : String) : Bool :=
  df.cols.any (fun c => c.fst == n)

def DataFrame.getCol (df : DataFrame) (n : String) : Option (List Cell) :=
  (df.cols.find? (fun c => c.fst == n)).map (fun c => c.snd)

/-- The column removal done by pandas drop(columns=names): remove every
column whose name is listed. -/
def DataFrame.dropCols (df : DataFrame) (names : List String) : DataFrame :=
  ⟨df.cols.filter (fun c => !(names.contains c.fst))⟩

/-- pandas drop(columns=names) raises KeyError when a listed column is
missing (errors defaults to raise), so the unconditional drop of
processInfluxDF is fallible. -/
def DataFrame.dropColsChecked (df : DataFrame) (names : List String) : Option DataFrame :=
  if names.all (fun n => df.hasCol n) then some (df.dropCols names) else none

/-- pandas rename(columns = mapping from old to new). -/
def DataFrame.renameCol (df : DataFrame) (old new : String) : DataFrame :=
  ⟨df.cols.map (fun c => if c.fst == old then (new, c.snd) else c)⟩

/-- Column assignment df[n] = df[n].map f: replace the cells of every
column named n by their image under f. -/
def DataFrame.mapCol (df : DataFrame) (n : String) (f : Cell → Cell) : DataFrame :=
  ⟨df.cols.map (fun c => if c.fst == n then (c.fst, c.snd.map f) else c)⟩

/-- Series.dt.tz_convert: re-express a tz-aware timestamp in another
zone; the absolute instant (UTC seconds) is unchanged, only the attached
offset moves. -/
def Cell.tzConvert (off : Int) : Cell → Cell
  | .aware u _ => .aware u off
  | c => c

/-- Series.dt.tz_localize(None): drop the zone annotation, keeping the
wall-clock value of the annotated zone. -/
def Cell.tzLocalizeNone : Cell → Cell
  | .aware u o => .naive (u + o)
  | c => c

/-- pd.Timestamp("1970-01-01") as naive seconds. -/
def pdTimestamp19700101 : Int := 86400 * daysFromCivil 1970 1 1

/-- pd.Timedelta of one second, in seconds. -/
def pdTimedelta1s : ℚ := 1

/-- The unix-time assignment of processInfluxDF on one cell:
(time - pd.Timestamp of 1970-01-01) / pd.Timedelta of 1s. -/
def Cell.toUnixSeconds : Cell → Cell
  | .naive n => .num (((n - pdTimestamp19700101 : Int) : ℚ) / pdTimedelta1s)
  | c => c

def Cell.isAware : Cell → Bool
  | .aware _ _ => true
  | _ => false

/-- The composed per-cell effect of the three time-column assignments of
processInfluxDF: tz_convert to the output zone, tz_localize(None),
convert to unix epoch seconds. -/
def timePipeline (off : Int) (c : Cell) : Cell :=
  Cell.toUnixSeconds (Cell.tzLocalizeNone (Cell.tzConvert off c))

/-- The three time-column assignments of processInfluxDF; the pandas .dt
accessor raises on a column that is not tz-aware datetime, so every cell
of the time column is required to be tz-aware. -/
def convertTime (off : Int) (df : DataFrame) : Option DataFrame :=
  match df.getCol "time" with
  | some tc =>
      if tc.all Cell.isAware then some (df.mapCol "time" (timePipeline off)) else none
  | none => none

/-- Column n read at the first row, as df at n dot iloc 0: fails when the
column is missing (KeyError) or has no rows (IndexError). -/
def firstCell (df : DataFrame) (n : String) : Option Cell :=
  (df.getCol n).bind List.head?

/-- Python list(s) on a string: its characters. -/
def pyList (s : String) : List Char := s.toList

/-- pandas Series.unique(): distinct elements in order of first
appearance. -/
def pdUnique {α : Type} [DecidableEq α] (l : List α) : List α :=
  l.foldl (fun acc c => if acc.contains c then acc else acc ++ [c]) []

def warnErrMsg : String := "WARNING: Some anemometer values were recorded with an error code"

/-- The err-column check of processInfluxDF, verbatim from the source:
err_list is the unique elements of pd.Series(list("err")) — note that the
source inspects the characters of the literal string "err", not the cells
of the err column. -/
def errWarnings (df2 : DataFrame) : List String :=
  if df2.hasCol "err" then
    if (pdUnique (pyList "err")).length > 1 then [warnErrMsg] else []
  else []

/-- The conditional baro_time drop of processInfluxDF. -/
def stageBaro (o1 : DataFrame) : DataFrame :=
  if o1.hasCol "baro_time" then o1.dropCols ["baro_time"] else o1

/-- The conditional err drop of processInfluxDF. -/
def stageErr (o2 : DataFrame) : DataFrame :=
  if o2.hasCol "err" then o2.dropCols ["err"] else o2

/-- The column shape of the normalized table before the time conversion:
conditional baro_time drop, conditional err drop, rename of the time
column. -/
def stage2 (o1 : DataFrame) : DataFrame :=
  (stageErr (stageBaro o1)).renameCol "_time" "time"

structure ProcessResult where
  idStr : String
  table : DataFrame
  warnings : List String
  deriving DecidableEq

/-- processInfluxDF(df, output_tz) of get-paros-data.py: read the
measurement and id of the first row, drop the bookkeeping columns, apply
the conditional baro_time and err drops (recording the warning printed by
the err check), rename the time column, and convert it to unix epoch
seconds in the output zone. -/
def processInfluxDF (df : DataFrame) (off : Int) : Option ProcessResult :=
  Option.bind (firstCell df "_measurement") (fun mC =>
  Option.bind (firstCell df "id") (fun iC =>
  Option.bind (df.dropColsChecked ["result", "table", "_measurement", "id"]) (fun o1 =>
  Option.bind (convertTime off (stage2 o1)) (fun o5 =>
  some ⟨Cell.pyStr mC ++ "_" ++ Cell.pyStr iC, o5, errWarnings (stageBaro o1)⟩))))

/-- Python str.split for a single-character separator, over the character
list of the string. -/
def splitOnChar (sep : Char) : List Char → List (List Char)
  | [] => [[]]
  | c :: rest =>
    if c = sep then [] :: splitOnChar sep rest
    else
      match splitOnChar sep rest with
      | [] => [[c]]
      | g :: gs => (c :: g) :: gs

/-- in_str.split on a comma, as in Python. -/
def pySplit (s : String) : List String :=
  (splitOnChar ',' s.toList).map (fun cs => String.mk cs)

/-- One equality predicate of the generated filter clause. -/
def mkPred (colName v : String) : String :=
  "r[\"" ++ colName ++ "\"] == \"" ++ v ++ "\""

/-- createFluxFilters(col_name, in_str) of get-paros-data.py; none is the
absent CLI option. -/
def createFluxFilters (colName : String) (inStr : Option String) : String :=
  match inStr with
  | none => ""
  | some s =>
    let inList := if s.toList.contains ',' then pySplit s else [s]
    let filterList := inList.map (fun i => mkPred colName i)
    let filterListStr := String.intercalate " or " filterList
    if filterList.length > 0 then
      "|> filter(fn: (r) => " ++ filterListStr ++ ")"
    else ""

/-- A Python datetime: the wall-clock value as seconds since the epoch of
its own calendar fields, plus an optional fixed utc offset standing for
the attached tzinfo (none is a naive datetime). -/
structure PyDateTime where
  naiveSecs : Int
  tzOffset : Option Int
  deriving DecidableEq

/-- pytz tz.localize: attach the zone to a datetime without changing the
wall clock. -/
def pyLocalize (off : Int) (dt : PyDateTime) : PyDateTime :=
  { naiveSecs := dt.naiveSecs, tzOffset := some off }

/-- dt.astimezone(datetime.timezone.utc) on an aware datetime: shift the
wall clock by the attached offset, now at offset zero. -/
def astimezoneUtc (dt : PyDateTime) : PyDateTime :=
  match dt.tzOffset with
  | some off => { naiveSecs := dt.naiveSecs - off, tzOffset := some 0 }
  | none => dt

/-- dt.replace(tzinfo=None). -/
def replaceTzNone (dt : PyDateTime) : PyDateTime :=
  { naiveSecs := dt.naiveSecs, tzOffset := none }

def digitsToNat (cs : List Char) : Nat :=
  cs.foldl (fun a c => a * 10 + (c.toNat - 48)) 0

def parseFixedNat (cs : List Char) (w : Nat) : Option Nat :=
  if cs.length = w ∧ cs.all Char.isDigit then some (digitsToNat cs) else none

def isLeap (y : Int) : Bool :=
  (y % 4 == 0 && !(y % 100 == 0)) || y % 400 == 0

def daysInMonth (y m : Int) : Int :=
  if m = 2 then (if isLeap y then 29 else 28)
  else if m = 4 ∨ m = 6 ∨ m = 9 ∨ m = 11 then 30
  else 31

/-- The date part of datetime.fromisoformat: YYYY-MM-DD with the range
validation fromisoformat performs. -/
def parseDatePart (cs : List Char) : Option (Int × Int × Int) :=
  match splitOnChar '-' cs with
  | [ys, ms, ds] =>
    match parseFixedNat ys 4, parseFixedNat ms 2, parseFixedNat ds 2 with
    | some y, some m, some d =>
      if 1 ≤ (y : Int) ∧ (y : Int) ≤ 9999 ∧ 1 ≤ (m : Int) ∧ (m : Int) ≤ 12 ∧
          1 ≤ (d : Int) ∧ (d : Int) ≤ daysInMonth (y : Int) (m : Int) then
        some ((y : Int), (m : Int), (d : Int))
      else none
    | _, _, _ => none
  | _ => none

/-- The time part of datetime.fromisoformat: HH:MM:SS with range
validation. -/
def parseTimePart (cs : List Char) : Option (Int × Int × Int) :=
  match splitOnChar ':' cs with
  | [hs, ms, ss] =>
    match parseFixedNat hs 2, parseFixedNat ms 2, parseFixedNat ss 2 with
    | some hh, some mi, some s =>
      if (hh : Int) ≤ 23 ∧ (mi : Int) ≤ 59 ∧ (s : Int) ≤ 59 then
        some ((hh : Int), (mi : Int), (s : Int))
      else none
    | _, _, _ => none
  | _ => none

/-- datetime.datetime.fromisoformat restricted to the input shape the
script documents (YYYY-MM-DDTHH:MM:SS, date-only also accepted); the
result is a naive datetime. -/
def fromisoformat (s : String) : Option PyDateTime :=
  match splitOnChar 'T' s.toList with
  | [dcs] =>
    (parseDatePart dcs).map (fun ymd =>
      ⟨daysFromCivil ymd.1 ymd.2.1 ymd.2.2 * 86400, none⟩)
  | [dcs, tcs] =>
    match parseDatePart dcs, parseTimePart tcs with
    | some ymd, some hms =>
      some ⟨daysFromCivil ymd.1 ymd.2.1 ymd.2.2 * 86400 + hms.1 * 3600 + hms.2.1 * 60 + hms.2.2, none⟩
    | _, _ => none
  | _ => none

def pad2 (n : Nat) : String :=
  if n < 10 then "0" ++ toString n else toString n

def pad4 (n : Nat) : String :=
  if n < 10 then "000" ++ toString n
  else if n < 100 then "00" ++ toString n
  else if n < 1000 then "0" ++ toString n
  else toString n

/-- datetime.isoformat() of a naive datetime given as seconds. -/
def isoOfSecs (n : Int) : String :=
  let days := Int.fdiv n 86400
  let sod := (Int.fmod n 86400).toNat
  let c := civilFromDays days
  (if c.1 < 0 then "-" ++ pad4 c.1.natAbs else pad4 c.1.toNat) ++ "-" ++
    pad2 c.2.1.toNat ++ "-" ++ pad2 c.2.2.toNat ++ "T" ++
    pad2 (sod / 3600) ++ ":" ++ pad2 (sod % 3600 / 60) ++ ":" ++ pad2 (sod % 60)

/-- The utcoffset suffix datetime.isoformat() prints for an aware
datetime; the script strips tzinfo before formatting, so its output never
carries one. -/
def utcoffsetSuffix (off : Int) : String :=
  (if off < 0 then "-" else "+") ++ pad2 (off.natAbs / 3600) ++ ":" ++ pad2 (off.natAbs % 3600 / 60)

def isoformat (dt : PyDateTime) : String :=
  match dt.tzOffset with
  | none => isoOfSecs dt.naiveSecs
  | some off => isoOfSecs dt.naiveSecs ++ utcoffsetSuffix off

/-- The processing main() applies to each CLI time argument:
fromisoformat, localize to the input zone, astimezone to UTC,
replace(tzinfo=None). -/
def processTimeArg (inputOff : Int) (s : String) : Option PyDateTime :=
  (fromisoformat s).map (fun t => replaceTzNone (astimezoneUtc (pyLocalize inputOff t)))

/-- The flux query string assembled in main(), given the already
formatted start/stop strings (isoformat plus the literal Z). -/
def queryString (bucket startStr stopStr : String) (boxId sensorId : Option String) : String :=
  let boxFilters := createFluxFilters "_measurement" boxId
  let sensorFilters := createFluxFilters "id" sensorId
  "from(bucket: \"" ++ bucket ++ "\")\n        |> range(start: " ++ startStr ++
    ", stop: " ++ stopStr ++ ")\n" ++
    (if boxFilters = "" then "" else "\t" ++ boxFilters ++ "\n") ++
    (if sensorFilters = "" then "" else "\t" ++ sensorFilters ++ "\n") ++
    "\t|> drop(columns: [\"_start\", \"_stop\"])\n        |> pivot(rowKey:[\"_time\"], columnKey: [\"_field\"], valueColumn: \"_value\")"

/-- main()'s query construction from the raw CLI strings: process both
time arguments, then build the query with isoformat output and a literal
Z appended. -/
def buildQueryFromArgs (inputOff : Int) (bucket startS endS : String)
    (boxId sensorId : Option String) : Option String :=
  match processTimeArg inputOff startS, processTimeArg inputOff endS with
  | some st, some et =>
    some (queryString bucket (isoformat st ++ "Z") (isoformat et ++ "Z") boxId sensorId)
  | _, _ => none

def lastIndexOf (cs : List Char) (c : Char) : Int :=
  cs.enum.foldl (fun acc p => if p.snd = c then (p.fst : Int) else acc) (-1)

/-- os.path.splitext on posix paths: split off the last extension of the
basename; leading dots of the basename never start an extension. -/
def splitext (p : String) : String × String :=
  let cs := p.toList
  let sepIndex := lastIndexOf cs '/'
  let dotIndex := lastIndexOf cs '.'
  if sepIndex < dotIndex then
    let fnameStart := (sepIndex + 1).toNat
    let lead := (cs.drop fnameStart).take (dotIndex.toNat - fnameStart)
    if lead.any (fun ch => ch != '.') then
      (String.mk (cs.take dotIndex.toNat), String.mk (cs.drop dotIndex.toNat))
    else (p, "")
  else (p, "")

/-- The payload of one written output file; the binary encodings of the
three backends are external collaborators, so the structured content is
recorded instead of bytes. -/
inductive FileContent where
  | csv : DataFrame → FileContent
  | mat : List (String × DataFrame) → FileContent
  | pickle : List (String × DataFrame) → FileContent
  deriving DecidableEq

/-- The output section of main(): dispatch on the extension returned by
splitext and return the files written and the lines printed, in order. -/
def exportOutput (outputFile : String) (bundle : List (String × DataFrame)) :
    List (String × FileContent) × List String :=
  let outputName := (splitext outputFile).fst
  let outputType := (splitext outputFile).snd
  if outputType = ".csv" then
    (bundle.map (fun p => (outputName ++ "_" ++ p.fst ++ ".csv", FileContent.csv p.snd)),
     bundle.map (fun p => "Saved file " ++ outputName ++ "_" ++ p.fst ++ ".csv successfully."))
  else if outputType = ".mat" then
    ([(outputName ++ ".mat", FileContent.mat bundle)],
     ["Saved file " ++ outputName ++ ".mat successfully. Load in matlab."])
  else if outputType = ".pickle" then
    ([(outputName ++ ".pickle", FileContent.pickle bundle)],
     ["\nSaved file " ++ outputName ++ ".pickle successfully. Serialized as a dictionary of dataframes."])
  else ([], [])

/-- The credentials record stored by influxdb-setup.py. -/
structure Creds where
  idb_url : String
  idb_org : String
  idb_token : String
  deriving DecidableEq

/-- The influxdb client as constructed by loadInfluxClient. -/
structure InfluxClient where
  url : String
  token : String
  org : String
  timeout : Nat
  deriving DecidableEq

def credsMissingMsg : String :=
  "InfluxDB credentials file not found. Run influxdb-setup.py to generate one."

/-- loadInfluxClient(pickle_path) of get-paros-data.py: the filesystem is
passed explicitly as a map from path to stored credentials record; the
missing-file branch prints a message and exits with code 1, modelled as
an error value carrying the message and the exit code (no exception). -/
def loadInfluxClient (fs : String → Option Creds) (picklePath : String) :
    Except (String × Nat) InfluxClient :=
  match fs picklePath with
  | some d => Except.ok ⟨d.idb_url, d.idb_token, d.idb_org, 100000000⟩
  | none => Except.error (credsMissingMsg, 1)

/-- Python dict assignment out_df at key gets value: replace in place
when the key exists, else append at the end. -/
def dictInsert (d : List (String × DataFrame)) (k : String) (v : DataFrame) :
    List (String × DataFrame) :=
  if d.any (fun p => p.fst == k) then
    d.map (fun p => if p.fst == k then (k, v) else p)
  else d ++ [(k, v)]

/-- One iteration of the dataframe-processing loop of main(). -/
def bundleStep (off : Int) (acc : List (String × DataFrame)) (df : DataFrame) :
    Option (List (String × DataFrame)) :=
  (processInfluxDF df off).map (fun r => dictInsert acc r.idStr r.table)

/-- The dataframe-processing loop of main(): process each split table and
store it in the out_df dict under its identifier. -/
def buildBundle (off : Int) (dfs : List DataFrame) : Option (List (String × DataFrame)) :=
  dfs.foldlM (bundleStep off) []

/-- A one-row raw result table whose naive output-zone time is ten
seconds past the epoch. -/
def dfTen : DataFrame :=
  ⟨[("result", [Cell.str "_result"]), ("table", [Cell.num 0]),
    ("_measurement", [Cell.str "box7"]), ("id", [Cell.str "P1"]),
    ("_time", [Cell.aware 10 0]), ("value", [Cell.num 5])]⟩

def tblTen : DataFrame := ⟨[("time", [Cell.num 10]), ("value", [Cell.num 5])]⟩

def rTen : ProcessResult := ⟨"box7_P1", tblTen, []⟩

/-- A raw result table carrying an err column with a single distinct
value (zero in both rows). -/
def dfErrOne : DataFrame :=
  ⟨[("result", [Cell.str "_result", Cell.str "_result"]), ("table", [Cell.num 0, Cell.num 0]),
    ("_measurement", [Cell.str "box3", Cell.str "box3"]), ("id", [Cell.str "anem1", Cell.str "anem1"]),
    ("_time", [Cell.aware 0 0, Cell.aware 1 0]), ("err", [Cell.num 0, Cell.num 0]),
    ("speed", [Cell.num 3, Cell.num 4])]⟩

/-- A second raw table with the same (measurement, id) pair as dfTen but
different data. -/
def dfDup2 : DataFrame :=
  ⟨[("result", [Cell.str "_result"]), ("table", [Cell.num 0]),
    ("_measurement", [Cell.str "box7"]), ("id", [Cell.str "P1"]),
    ("_time", [Cell.aware 20 0]), ("value", [Cell.num 7])]⟩

def tblDup2 : DataFrame := ⟨[("time", [Cell.num 20]), ("value", [Cell.num 7])]⟩

def rDup2 : ProcessResult := ⟨"box7_P1", tblDup2, []⟩

/-- The bookkeeping and diagnostic columns the Result Normalizer removes
(the time column leaves under its new name). -/
def droppedNames : List String :=
  ["result", "table", "_measurement", "id", "baro_time", "err", "_time"]

/-- A raw table with the expected columns but zero rows. -/
def dfEmptyRows : DataFrame :=
  ⟨[("result", []), ("table", []), ("_measurement", []), ("id", []), ("_time", [])]⟩

theorem splitOnChar_ne_nil (sep : Char) (l : List Char) : splitOnChar sep l ≠ [] := by
  cases l with
  | nil => simp [splitOnChar]
  | cons c rest =>
    simp only [splitOnChar]
    by_cases h : c = sep
    · simp [h]
    · simp only [if_neg h]
      cases hs : splitOnChar sep rest <;> simp

theorem splitOnChar_no_sep (sep : Char) (l : List Char) (h : ∀ c ∈ l, c ≠ sep) :
    splitOnChar sep l = [l] := by
  induction l with
  | nil => rfl
  | cons c rest ih =>
    have hc : c ≠ sep := h c (by simp)
    have ht : ∀ x ∈ rest, x ≠ sep := fun x hx => h x (by simp [hx])
    simp only [splitOnChar, if_neg hc, ih ht]

theorem mk_toList (s : String) : String.mk s.toList = s := by
  cases s with
  | mk data => rfl

/-- C2 (amended): the filter clause is omitted exactly when the input is
absent (the CLI option not given); when the input is present — including
the empty string — the clause is a single filter stage holding one
equality predicate per comma-separated component of the input, joined
with the string consisting of a space, the word or, and a space. -/
theorem C2_filters (col s : String) :
    createFluxFilters col none = "" ∧
    createFluxFilters col (some s) =
      "|> filter(fn: (r) => " ++ String.intercalate " or " ((pySplit s).map (mkPred col)) ++ ")" ∧
    ((pySplit s).map (mkPred col)).length = (pySplit s).length := by
  refine ⟨rfl, ?_, List.length_map _ _⟩
  by_cases hc : s.toList.contains ','
  · have hpos : 0 < ((pySplit s).map (mkPred col)).length := by
      rw [List.length_map]
      unfold pySplit
      rw [List.length_map]
      exact List.length_pos.mpr (splitOnChar_ne_nil _ _)
    simp only [createFluxFilters, hc, if_true]
    rw [if_pos hpos]
  · have hl : ∀ c ∈ s.toList, c ≠ ',' := by
      intro c hcmem he
      exact hc (he ▸ List.elem_eq_true_of_mem hcmem)
    have hnmem : (',' ∈ s.toList) → False := fun hm => hc (List.elem_eq_true_of_mem hm)
    have hsplit : pySplit s = [s] := by
      unfold pySplit
      rw [splitOnChar_no_sep _ _ hl]
      simp [mk_toList]
    simp [createFluxFilters, hnmem, hsplit]

/-- C2 counterexample: for the present-but-empty filter input the clause
is not omitted; it is a filter stage with one empty-valued predicate. -/
theorem C2_empty_not_omitted :
    createFluxFilters "_measurement" (some "") ≠ "" ∧
    createFluxFilters "_measurement" (some "") =
      "|> filter(fn: (r) => r[\"_measurement\"] == \"\")" := by
  decide

/-- C1: on a raw table whose err column holds a single distinct value,
the source still emits the error-flag warning, because it takes the
distinct elements of the characters of the literal string err (always
two) instead of the distinct values of the err column; the err column is
nonetheless dropped from the output. The claim (warn iff more than one
distinct value) is the documented intent and the code contradicts it. -/
theorem C1_code_behavior :
    (dfErrOne.getCol "err").map (fun l => (pdUnique l).length) = some 1 ∧
    (processInfluxDF dfErrOne 0).map ProcessResult.warnings = some [warnErrMsg] ∧
    (processInfluxDF dfErrOne 0).map (fun r => r.table.hasCol "err") = some false := by
  decide

/-- C3: each CLI time string is parsed as a naive timestamp, localized to
the declared input zone, converted to UTC and stripped of tzinfo, and the
query is built with the resulting naive UTC timestamp (the parsed wall
clock minus the input-zone offset) formatted by isoformat with a literal
Z appended. -/
theorem C3_query_time (inputOff : Int) (bucket s1 s2 : String) (boxId sensorId : Option String)
    (d1 d2 : PyDateTime) (h1 : fromisoformat s1 = some d1) (h2 : fromisoformat s2 = some d2) :
    buildQueryFromArgs inputOff bucket s1 s2 boxId sensorId =
      some (queryString bucket (isoOfSecs (d1.naiveSecs - inputOff) ++ "Z")
        (isoOfSecs (d2.naiveSecs - inputOff) ++ "Z") boxId sensorId) := by
  simp [buildQueryFromArgs, processTimeArg, h1, h2, pyLocalize, astimezoneUtc, replaceTzNone,
    isoformat]

theorem C3_query_time_witness :
    buildQueryFromArgs 3600 "parosbox" "1970-01-02T01:00:10" "1970-01-02T02:00:10" none none =
      some (queryString "parosbox" (isoOfSecs ((90010 : Int) - 3600) ++ "Z")
        (isoOfSecs ((93610 : Int) - 3600) ++ "Z") none none) :=
  C3_query_time 3600 "parosbox" "1970-01-02T01:00:10" "1970-01-02T02:00:10" none none
    ⟨90010, none⟩ ⟨93610, none⟩ (by decide) (by decide)

/-- C7: for an output path whose extension is none of .csv, .mat and
.pickle, the exporter writes no file and prints nothing (and, being a
total function, the run ends normally). -/
theorem C7_unknown_ext_noop (p : String) (bundle : List (String × DataFrame))
    (h1 : (splitext p).snd ≠ ".csv") (h2 : (splitext p).snd ≠ ".mat")
    (h3 : (splitext p).snd ≠ ".pickle") :
    exportOutput p bundle = ([], []) := by
  simp [exportOutput, h1, h2, h3]

theorem C7_unknown_ext_noop_witness :
    exportOutput "out.txt" [("box7_P1", tblTen)] = ([], []) :=
  C7_unknown_ext_noop "out.txt" [("box7_P1", tblTen)] (by decide) (by decide) (by decide)

/-- C8: loading credentials from a path that stores no record yields the
graceful fatal exit (the explanatory message and exit code 1, no
exception value); from a path that stores a record, no exit happens and
the client is built from the record's idb_url, idb_token and idb_org with
the fixed timeout. -/
theorem C8_load_creds (fs : String → Option Creds) (p : String) :
    (fs p = none → loadInfluxClient fs p = Except.error (credsMissingMsg, 1)) ∧
    (∀ c, fs p = some c →
      loadInfluxClient fs p = Except.ok ⟨c.idb_url, c.idb_token, c.idb_org, 100000000⟩) := by
  constructor
  · intro h
    simp [loadInfluxClient, h]
  · intro c h
    simp [loadInfluxClient, h]

theorem C8_load_creds_witness :
    loadInfluxClient (fun _ => none) "influx-creds.pickle" =
      Except.error (credsMissingMsg, 1) ∧
    loadInfluxClient (fun _ => some ⟨"u", "o", "t"⟩) "influx-creds.pickle" =
      Except.ok ⟨"u", "t", "o", 100000000⟩ :=
  ⟨(C8_load_creds (fun _ => none) "influx-creds.pickle").1 rfl,
   (C8_load_creds (fun _ => some ⟨"u", "o", "t"⟩) "influx-creds.pickle").2 ⟨"u", "o", "t"⟩ rfl⟩

/-- C9: on a table with zero rows the Result Normalizer fails (returns no
result) — the unguarded first-row read of measurement and id finds no
row. -/
theorem C9_empty_fails (df : DataFrame) (off : Int)
    (h : ∀ c ∈ df.cols, c.snd = ([] : List Cell)) :
    processInfluxDF df off = none := by
  have aux : ∀ nm, firstCell df nm = none := by
    intro nm
    unfold firstCell DataFrame.getCol
    cases hf : df.cols.find? (fun c => c.fst == nm) with
    | none => rfl
    | some c =>
      have hmem := List.mem_of_find?_eq_some hf
      simp [h c hmem]
  simp [processInfluxDF, aux]

theorem C9_empty_fails_witness : processInfluxDF dfEmptyRows 0 = none :=
  C9_empty_fails dfEmptyRows 0 (by decide)

theorem find?_filter_keep {α : Type} (l : List α) (p q : α → Bool)
    (h : ∀ x, p x = true → q x = true) :
    (l.filter q).find? p = l.find? p := by
  induction l with
  | nil => rfl
  | cons a t ih =>
    by_cases hq : q a = true
    · by_cases hp : p a = true <;> simp [List.filter_cons, hq, List.find?_cons, hp, ih]
    · have hp : p a = false := by
        cases hpa : p a
        · rfl
        · exact absurd (h a hpa) hq
      simp [List.filter_cons, hq, List.find?_cons, hp, ih]

theorem any_filter_keep_false {α : Type} (l : List α) (p q : α → Bool)
    (h : ∀ x, p x = true → q x = false) :
    (l.filter q).any p = false := by
  induction l with
  | nil => rfl
  | cons a t ih =>
    by_cases hq : q a = true
    · have hp : p a = false := by
        cases hpa : p a
        · rfl
        · exact absurd hq (by simp [h a hpa])
      simp [List.filter_cons, hq, List.any_cons, hp, ih]
    · simp [List.filter_cons, hq, ih]

theorem any_filter_mono {α : Type} (l : List α) (p q : α → Bool) (h : l.any p = false) :
    (l.filter q).any p = false := by
  induction l with
  | nil => rfl
  | cons a t ih =>
    have h2 : p a = false ∧ t.any p = false := by
      simpa [List.any_cons, Bool.or_eq_false_iff] using h
    by_cases hq : q a = true
    · simp [List.filter_cons, hq, List.any_cons, h2.1, ih h2.2]
    · simp [List.filter_cons, hq, ih h2.2]

theorem rename_pred_ne (old new n : String) (h1 : n ≠ old) (h2 : n ≠ new) :
    ((fun c => c.fst == n) ∘
        (fun (c : String × List Cell) => if c.fst == old then (new, c.snd) else c)) =
      (fun c => c.fst == n) := by
  funext c
  by_cases hc : (c.fst == old) = true
  · have hce : c.fst = old := by simpa using hc
    simp [Function.comp, hc, hce, beq_eq_false_iff_ne.mpr (Ne.symm h1),
      beq_eq_false_iff_ne.mpr (Ne.symm h2)]
  · simp [Function.comp, hc]

theorem find?_rename_ne (cols : List (String × List Cell)) (old new n : String)
    (h1 : n ≠ old) (h2 : n ≠ new) :
    (cols.map (fun c => if c.fst == old then (new, c.snd) else c)).find?
        (fun c => c.fst == n) =
      cols.find? (fun c => c.fst == n) := by
  rw [List.find?_map, rename_pred_ne old new n h1 h2]
  cases hf : cols.find? (fun c => c.fst == n) with
  | none => rfl
  | some c =>
    have hp := List.find?_some hf
    have hcn : c.fst = n := by simpa using hp
    simp [hcn, h1]

theorem any_rename_old (cols : List (String × List Cell)) (old new : String) (h : old ≠ new) :
    (cols.map (fun c => if c.fst == old then (new, c.snd) else c)).any
      (fun c => c.fst == old) = false := by
  rw [List.any_map]
  have hfun : ((fun c => c.fst == old) ∘
      (fun (c : String × List Cell) => if c.fst == old then (new, c.snd) else c)) =
      fun _ => false := by
    funext c
    by_cases hc : (c.fst == old) = true
    · simp [Function.comp, hc, beq_eq_false_iff_ne.mpr (Ne.symm h)]
    · simp [Function.comp, hc]
  rw [hfun]
  simp

theorem any_rename_ne (cols : List (String × List Cell)) (old new n : String)
    (h1 : n ≠ old) (h2 : n ≠ new) :
    (cols.map (fun c => if c.fst == old then (new, c.snd) else c)).any
        (fun c => c.fst == n) =
      cols.any (fun c => c.fst == n) := by
  rw [List.any_map, rename_pred_ne old new n h1 h2]

theorem mapCol_pred (m : String) (f : Cell → Cell) (n : String) :
    ((fun c => c.fst == n) ∘
        (fun (c : String × List Cell) => if c.fst == m then (c.fst, c.snd.map f) else c)) =
      (fun c => c.fst == n) := by
  funext c
  by_cases hc : (c.fst == m) = true <;> simp [Function.comp, hc]

theorem any_mapCol_cols (cols : List (String × List Cell)) (m : String) (f : Cell → Cell)
    (n : String) :
    (cols.map (fun c => if c.fst == m then (c.fst, c.snd.map f) else c)).any
        (fun c => c.fst == n) =
      cols.any (fun c => c.fst == n) := by
  rw [List.any_map, mapCol_pred m f n]

theorem find?_mapCol_self (cols : List (String × List Cell)) (m : String) (f : Cell → Cell) :
    (cols.map (fun c => if c.fst == m then (c.fst, c.snd.map f) else c)).find?
        (fun c => c.fst == m) =
      (cols.find? (fun c => c.fst == m)).map
        (fun c => if c.fst == m then (c.fst, c.snd.map f) else c) := by
  rw [List.find?_map, mapCol_pred m f m]

theorem find?_mapCol_ne (cols : List (String × List Cell)) (m : String) (f : Cell → Cell)
    (n : String) (h : n ≠ m) :
    (cols.map (fun c => if c.fst == m then (c.fst, c.snd.map f) else c)).find?
        (fun c => c.fst == n) =
      cols.find? (fun c => c.fst == n) := by
  rw [List.find?_map, mapCol_pred m f n]
  cases hf : cols.find? (fun c => c.fst == n) with
  | none => rfl
  | some c =>
    have hp := List.find?_some hf
    have hcn : c.fst = n := by simpa using hp
    simp [hcn, h]

theorem getCol_dropCols (df : DataFrame) (names : List String) (n : String)
    (h : n ∉ names) :
    (df.dropCols names).getCol n = df.getCol n := by
  unfold DataFrame.getCol DataFrame.dropCols
  rw [find?_filter_keep]
  intro x hx
  have hfst : x.fst = n := by simpa using hx
  simp [hfst]
  exact h

theorem hasCol_dropCols_of_mem (df : DataFrame) (names : List String) (n : String)
    (h : n ∈ names) :
    (df.dropCols names).hasCol n = false := by
  unfold DataFrame.hasCol DataFrame.dropCols
  apply any_filter_keep_false
  intro x hx
  have hfst : x.fst = n := by simpa using hx
  simp [hfst]
  exact h

theorem hasCol_dropCols_mono (df : DataFrame) (names : List String) (n : String)
    (h : df.hasCol n = false) :
    (df.dropCols names).hasCol n = false := by
  unfold DataFrame.hasCol DataFrame.dropCols
  exact any_filter_mono _ _ _ h

theorem hasCol_renameCol_old (df : DataFrame) (old new : String) (h : old ≠ new) :
    (df.renameCol old new).hasCol old = false := by
  unfold DataFrame.hasCol DataFrame.renameCol
  exact any_rename_old _ _ _ h

theorem hasCol_renameCol_ne (df : DataFrame) (old new n : String)
    (h1 : n ≠ old) (h2 : n ≠ new) :
    (df.renameCol old new).hasCol n = df.hasCol n := by
  unfold DataFrame.hasCol DataFrame.renameCol
  exact any_rename_ne _ _ _ _ h1 h2

theorem getCol_renameCol_ne (df : DataFrame) (old new n : String)
    (h1 : n ≠ old) (h2 : n ≠ new) :
    (df.renameCol old new).getCol n = df.getCol n := by
  unfold DataFrame.getCol DataFrame.renameCol
  rw [find?_rename_ne _ _ _ _ h1 h2]

theorem find?_rename_self (cols : List (String × List Cell)) (old new : String)
    (h : cols.any (fun c => c.fst == new) = false) :
    ((cols.map (fun c => if c.fst == old then (new, c.snd) else c)).find?
        (fun c => c.fst == new)).map (fun c => c.snd) =
      (cols.find? (fun c => c.fst == old)).map (fun c => c.snd) := by
  induction cols with
  | nil => rfl
  | cons a t ih =>
    have h2 : (a.fst == new) = false ∧ t.any (fun c => c.fst == new) = false := by
      simpa [List.any_cons, Bool.or_eq_false_iff] using h
    simp only [List.map_cons]
    by_cases ha : (a.fst == old) = true
    · rw [if_pos ha]
      rw [@List.find?_cons_of_pos _ (fun c => c.fst == new) (new, a.snd) _ (by simp),
        @List.find?_cons_of_pos _ (fun c => c.fst == old) a t ha]
      rfl
    · rw [if_neg ha]
      rw [@List.find?_cons_of_neg _ (fun c => c.fst == new) a _ (by simp [h2.1]),
        @List.find?_cons_of_neg _ (fun c => c.fst == old) a t ha]
      exact ih h2.2

theorem getCol_renameCol_self (df : DataFrame) (old new : String)
    (h : df.hasCol new = false) :
    (df.renameCol old new).getCol new = df.getCol old := by
  unfold DataFrame.hasCol at h
  unfold DataFrame.getCol DataFrame.renameCol
  exact find?_rename_self _ _ _ h

theorem hasCol_mapCol (df : DataFrame) (m : String) (f : Cell → Cell) (n : String) :
    (df.mapCol m f).hasCol n = df.hasCol n := by
  unfold DataFrame.hasCol DataFrame.mapCol
  exact any_mapCol_cols _ _ _ _

theorem getCol_mapCol_self (df : DataFrame) (m : String) (f : Cell → Cell) :
    (df.mapCol m f).getCol m = (df.getCol m).map (List.map f) := by
  unfold DataFrame.getCol DataFrame.mapCol
  rw [find?_mapCol_self]
  cases hf : df.cols.find? (fun c => c.fst == m) with
  | none => rfl
  | some c =>
    have hc := List.find?_some hf
    have hce : c.fst = m := by simpa using hc
    simp [hce]

theorem getCol_mapCol_ne (df : DataFrame) (m : String) (f : Cell → Cell) (n : String)
    (h : n ≠ m) :
    (df.mapCol m f).getCol n = df.getCol n := by
  unfold DataFrame.getCol DataFrame.mapCol
  rw [find?_mapCol_ne _ _ _ _ h]

theorem hasCol_of_getCol_some (df : DataFrame) (n : String) (l : List Cell)
    (h : df.getCol n = some l) : df.hasCol n = true := by
  unfold DataFrame.getCol at h
  unfold DataFrame.hasCol
  cases hf : df.cols.find? (fun c => c.fst == n) with
  | none => rw [hf] at h; cases h
  | some c =>
    have hmem := List.mem_of_find?_eq_some hf
    have hp := List.find?_some hf
    exact List.any_eq_true.mpr ⟨c, hmem, by simpa using hp⟩

theorem hasCol_stageBaro_mono (o1 : DataFrame) (n : String) (h : o1.hasCol n = false) :
    (stageBaro o1).hasCol n = false := by
  unfold stageBaro
  split
  · exact hasCol_dropCols_mono _ _ _ h
  · exact h

theorem hasCol_stageErr_mono (o2 : DataFrame) (n : String) (h : o2.hasCol n = false) :
    (stageErr o2).hasCol n = false := by
  unfold stageErr
  split
  · exact hasCol_dropCols_mono _ _ _ h
  · exact h

theorem hasCol_stageBaro_self (o1 : DataFrame) : (stageBaro o1).hasCol "baro_time" = false := by
  unfold stageBaro
  split
  · exact hasCol_dropCols_of_mem _ _ _ (by decide)
  · next hfalse => simpa using hfalse

theorem hasCol_stageErr_self (o2 : DataFrame) : (stageErr o2).hasCol "err" = false := by
  unfold stageErr
  split
  · exact hasCol_dropCols_of_mem _ _ _ (by decide)
  · next hfalse => simpa using hfalse

theorem getCol_stageBaro_ne (o1 : DataFrame) (n : String) (h : n ≠ "baro_time") :
    (stageBaro o1).getCol n = o1.getCol n := by
  unfold stageBaro
  split
  · exact getCol_dropCols _ _ _ (by simpa using h)
  · rfl

theorem getCol_stageErr_ne (o2 : DataFrame) (n : String) (h : n ≠ "err") :
    (stageErr o2).getCol n = o2.getCol n := by
  unfold stageErr
  split
  · exact getCol_dropCols _ _ _ (by simpa using h)
  · rfl

theorem dropColsChecked_inv (df : DataFrame) (names : List String) (o : DataFrame)
    (h : df.dropColsChecked names = some o) : o = df.dropCols names := by
  unfold DataFrame.dropColsChecked at h
  split at h
  · exact (Option.some.inj h).symm
  · cases h

theorem processInfluxDF_inv (df : DataFrame) (off : Int) (r : ProcessResult)
    (h : processInfluxDF df off = some r) :
    ∃ mC iC o1 tc,
      firstCell df "_measurement" = some mC ∧
      firstCell df "id" = some iC ∧
      df.dropColsChecked ["result", "table", "_measurement", "id"] = some o1 ∧
      (stage2 o1).getCol "time" = some tc ∧
      tc.all Cell.isAware = true ∧
      r = ⟨Cell.pyStr mC ++ "_" ++ Cell.pyStr iC,
           (stage2 o1).mapCol "time" (timePipeline off), errWarnings (stageBaro o1)⟩ := by
  cases hm : firstCell df "_measurement" with
  | none => simp [processInfluxDF, hm] at h
  | some mC =>
  cases hi : firstCell df "id" with
  | none => simp [processInfluxDF, hm, hi] at h
  | some iC =>
  cases hdrop : df.dropColsChecked ["result", "table", "_measurement", "id"] with
  | none => simp [processInfluxDF, hm, hi, hdrop] at h
  | some o1 =>
  cases hconv : convertTime off (stage2 o1) with
  | none => simp [processInfluxDF, hm, hi, hdrop, hconv] at h
  | some o5 =>
  simp only [processInfluxDF, hm, hi, hdrop, hconv, Option.some_bind] at h
  unfold convertTime at hconv
  cases htc : (stage2 o1).getCol "time" with
  | none =>
    simp only [htc] at hconv
    exact Option.noConfusion hconv
  | some tc =>
  simp only [htc] at hconv
  by_cases hall : tc.all Cell.isAware = true
  · rw [if_pos hall] at hconv
    have h5 : (stage2 o1).mapCol "time" (timePipeline off) = o5 := Option.some.inj hconv
    have hr : (⟨Cell.pyStr mC ++ "_" ++ Cell.pyStr iC, o5,
        errWarnings (stageBaro o1)⟩ : ProcessResult) = r := Option.some.inj h
    exact ⟨mC, iC, o1, tc, rfl, rfl, rfl, htc, hall, by rw [← hr, ← h5]⟩
  · rw [if_neg hall] at hconv
    exact Option.noConfusion hconv

/-- C5: the identifier returned by the Result Normalizer is the first
row's measurement value, an underscore, and the first row's id value. -/
theorem C5_identifier (df : DataFrame) (off : Int) (r : ProcessResult)
    (h : processInfluxDF df off = some r) (box sid : String)
    (hm : firstCell df "_measurement" = some (Cell.str box))
    (hi : firstCell df "id" = some (Cell.str sid)) :
    r.idStr = box ++ "_" ++ sid := by
  obtain ⟨mC, iC, o1, tc, hm2, hi2, _, _, _, hr⟩ := processInfluxDF_inv df off r h
  rw [hm] at hm2
  rw [hi] at hi2
  obtain rfl := Option.some.inj hm2
  obtain rfl := Option.some.inj hi2
  rw [hr]
  rfl

theorem epoch_zero : pdTimestamp19700101 = 0 := by decide

theorem C5_identifier_witness : rTen.idStr = "box7" ++ "_" ++ "P1" :=
  C5_identifier dfTen 0 rTen
    (by simp [processInfluxDF, dfTen, rTen, tblTen, firstCell, DataFrame.getCol,
      DataFrame.dropColsChecked, DataFrame.hasCol, DataFrame.dropCols, stage2, stageErr,
      stageBaro, DataFrame.renameCol, DataFrame.mapCol, convertTime, timePipeline,
      Cell.tzConvert, Cell.tzLocalizeNone, Cell.toUnixSeconds, errWarnings, pdUnique, pyList,
      epoch_zero, pdTimedelta1s, Cell.isAware, Cell.pyStr,
      List.find?, List.filter, List.all, List.any])
    "box7" "P1" (by decide) (by decide)

/-- C4: for a raw table whose time column is named by the database
convention (a raw time column, no column already named time), the
normalized time column is exactly the raw time column mapped through the
time pipeline, cell for cell and in row order; and for every row index
the raw cell is a tz-aware timestamp u at offset z whose pipeline image
is exactly the naive output-zone timestamp minus the 1970-01-01 epoch,
divided by one second: the integer u + off, as an exact rational. -/
theorem C4_unix_time (df : DataFrame) (off : Int) (r : ProcessResult)
    (h : processInfluxDF df off = some r)
    (times : List Cell) (hin : df.getCol "_time" = some times)
    (hnt : df.hasCol "time" = false) :
    r.table.getCol "time" = some (times.map (timePipeline off)) ∧
    ∀ (i : Nat) (hi : i < times.length), ∃ u z : Int,
      times.get ⟨i, hi⟩ = Cell.aware u z ∧
      timePipeline off (times.get ⟨i, hi⟩) = Cell.num ((u + off : Int) : ℚ) := by
  obtain ⟨mC, iC, o1, tc, _, _, hdrop, htc, hall, hr⟩ := processInfluxDF_inv df off r h
  have ho1 : o1 = df.dropCols ["result", "table", "_measurement", "id"] :=
    dropColsChecked_inv df _ o1 hdrop
  have hpre_get : (stageErr (stageBaro o1)).getCol "_time" = some times := by
    rw [getCol_stageErr_ne _ _ (by decide), getCol_stageBaro_ne _ _ (by decide), ho1,
      getCol_dropCols _ _ _ (by decide)]
    exact hin
  have hpre_has : (stageErr (stageBaro o1)).hasCol "time" = false := by
    apply hasCol_stageErr_mono
    apply hasCol_stageBaro_mono
    rw [ho1]
    exact hasCol_dropCols_mono _ _ _ hnt
  have hstage : (stage2 o1).getCol "time" = some times := by
    unfold stage2
    rw [getCol_renameCol_self _ _ _ hpre_has]
    exact hpre_get
  have htimes : tc = times := by
    rw [hstage] at htc
    exact (Option.some.inj htc).symm
  have hall2 : times.all Cell.isAware = true := by
    rw [← htimes]
    exact hall
  constructor
  · have htab : r.table = (stage2 o1).mapCol "time" (timePipeline off) := by rw [hr]
    rw [htab, getCol_mapCol_self, hstage]
    rfl
  · intro i hi
    have hmem : times.get ⟨i, hi⟩ ∈ times := List.get_mem times i hi
    have haw : Cell.isAware (times.get ⟨i, hi⟩) = true :=
      List.all_eq_true.mp hall2 _ hmem
    cases hcell : times.get ⟨i, hi⟩ with
    | aware u z =>
      refine ⟨u, z, rfl, ?_⟩
      simp [timePipeline, Cell.tzConvert, Cell.tzLocalizeNone, Cell.toUnixSeconds,
        epoch_zero, pdTimedelta1s]
    | str s => rw [hcell] at haw; exact absurd haw (by simp [Cell.isAware])
    | naive n => rw [hcell] at haw; exact absurd haw (by simp [Cell.isAware])
    | num q => rw [hcell] at haw; exact absurd haw (by simp [Cell.isAware])

theorem C4_unix_time_witness :
    rTen.table.getCol "time" = some ([Cell.aware 10 0].map (timePipeline 0)) ∧
    (∃ u z : Int,
      [Cell.aware 10 0].get ⟨0, by decide⟩ = Cell.aware u z ∧
      timePipeline 0 ([Cell.aware 10 0].get ⟨0, by decide⟩) =
        Cell.num ((u + 0 : Int) : ℚ)) := by
  have hres := C4_unix_time dfTen 0 rTen
    (by simp [processInfluxDF, dfTen, rTen, tblTen, firstCell, DataFrame.getCol,
      DataFrame.dropColsChecked, DataFrame.hasCol, DataFrame.dropCols, stage2, stageErr,
      stageBaro, DataFrame.renameCol, DataFrame.mapCol, convertTime, timePipeline,
      Cell.tzConvert, Cell.tzLocalizeNone, Cell.toUnixSeconds, errWarnings, pdUnique, pyList,
      epoch_zero, pdTimedelta1s, Cell.isAware, Cell.pyStr,
      List.find?, List.filter, List.all, List.any])
    [Cell.aware 10 0] (by decide) (by decide)
  exact ⟨hres.1, hres.2 0 (by decide)⟩

/-- C6: the normalized table has none of the bookkeeping and diagnostic
columns (result, table, measurement, id, baro_time, err, raw time),
carries the time column under its new name, and every other column — the
measured fields — is returned unchanged, cells in the original row
order. -/
theorem C6_columns (df : DataFrame) (off : Int) (r : ProcessResult)
    (h : processInfluxDF df off = some r) :
    (∀ n ∈ droppedNames, r.table.hasCol n = false) ∧
    r.table.hasCol "time" = true ∧
    (∀ n, n ∉ droppedNames → n ≠ "time" → r.table.getCol n = df.getCol n) := by
  obtain ⟨mC, iC, o1, tc, hm, hi, hdrop, htc, hall, hr⟩ := processInfluxDF_inv df off r h
  have ho1 : o1 = df.dropCols ["result", "table", "_measurement", "id"] :=
    dropColsChecked_inv df _ o1 hdrop
  have htab : r.table = (stage2 o1).mapCol "time" (timePipeline off) := by rw [hr]
  refine ⟨?_, ?_, ?_⟩
  · intro n hn
    rw [htab, hasCol_mapCol]
    fin_cases hn
    · unfold stage2
      rw [hasCol_renameCol_ne _ _ _ _ (by decide) (by decide)]
      apply hasCol_stageErr_mono
      apply hasCol_stageBaro_mono
      rw [ho1]
      exact hasCol_dropCols_of_mem _ _ _ (by decide)
    · unfold stage2
      rw [hasCol_renameCol_ne _ _ _ _ (by decide) (by decide)]
      apply hasCol_stageErr_mono
      apply hasCol_stageBaro_mono
      rw [ho1]
      exact hasCol_dropCols_of_mem _ _ _ (by decide)
    · unfold stage2
      rw [hasCol_renameCol_ne _ _ _ _ (by decide) (by decide)]
      apply hasCol_stageErr_mono
      apply hasCol_stageBaro_mono
      rw [ho1]
      exact hasCol_dropCols_of_mem _ _ _ (by decide)
    · unfold stage2
      rw [hasCol_renameCol_ne _ _ _ _ (by decide) (by decide)]
      apply hasCol_stageErr_mono
      apply hasCol_stageBaro_mono
      rw [ho1]
      exact hasCol_dropCols_of_mem _ _ _ (by decide)
    · unfold stage2
      rw [hasCol_renameCol_ne _ _ _ _ (by decide) (by decide)]
      apply hasCol_stageErr_mono
      exact hasCol_stageBaro_self o1
    · unfold stage2
      rw [hasCol_renameCol_ne _ _ _ _ (by decide) (by decide)]
      exact hasCol_stageErr_self _
    · unfold stage2
      exact hasCol_renameCol_old _ _ _ (by decide)
  · rw [htab, hasCol_mapCol]
    exact hasCol_of_getCol_some _ _ _ htc
  · intro n hnmem hnt
    have hne : n ≠ "result" ∧ n ≠ "table" ∧ n ≠ "_measurement" ∧ n ≠ "id" ∧
        n ≠ "baro_time" ∧ n ≠ "err" ∧ n ≠ "_time" := by
      simpa [droppedNames] using hnmem
    obtain ⟨h1, h2, h3, h4, h5, h6, h7⟩ := hne
    rw [htab, getCol_mapCol_ne _ _ _ _ hnt]
    unfold stage2
    rw [getCol_renameCol_ne _ _ _ _ h7 hnt]
    rw [getCol_stageErr_ne _ _ h6, getCol_stageBaro_ne _ _ h5, ho1]
    exact getCol_dropCols _ _ _ (by simp [h1, h2, h3, h4])

theorem C6_columns_witness :
    rTen.table.hasCol "err" = false ∧ rTen.table.hasCol "_time" = false ∧
    rTen.table.hasCol "time" = true ∧ rTen.table.getCol "value" = dfTen.getCol "value" := by
  have hp : processInfluxDF dfTen 0 = some rTen := by
    simp [processInfluxDF, dfTen, rTen, tblTen, firstCell, DataFrame.getCol,
      DataFrame.dropColsChecked, DataFrame.hasCol, DataFrame.dropCols, stage2, stageErr,
      stageBaro, DataFrame.renameCol, DataFrame.mapCol, convertTime, timePipeline,
      Cell.tzConvert, Cell.tzLocalizeNone, Cell.toUnixSeconds, errWarnings, pdUnique, pyList,
      epoch_zero, pdTimedelta1s, Cell.isAware, Cell.pyStr,
      List.find?, List.filter, List.all, List.any]
  exact ⟨(C6_columns dfTen 0 rTen hp).1 "err" (by decide),
    (C6_columns dfTen 0 rTen hp).1 "_time" (by decide),
    (C6_columns dfTen 0 rTen hp).2.1,
    (C6_columns dfTen 0 rTen hp).2.2 "value" (by decide) (by decide)⟩

theorem dictInsert_keys_nodup (d : List (String × DataFrame)) (k : String) (v : DataFrame)
    (h : (d.map Prod.fst).Nodup) : ((dictInsert d k v).map Prod.fst).Nodup := by
  by_cases hk : d.any (fun p => p.fst == k) = true
  · have hmap : (d.map (fun p => if p.fst == k then (k, v) else p)).map Prod.fst =
        d.map Prod.fst := by
      rw [List.map_map]
      apply List.map_congr_left
      intro p _
      by_cases hp : (p.fst == k) = true
      · have hpe : p.fst = k := by simpa using hp
        simp [Function.comp, hp, hpe]
      · simp [Function.comp, hp]
    simp only [dictInsert, if_pos hk]
    rw [hmap]
    exact h
  · simp only [dictInsert, if_neg hk]
    rw [List.map_append]
    apply List.Nodup.append h (List.nodup_singleton k)
    intro x hx hxk
    have hxe : x = k := by simpa using hxk
    subst hxe
    obtain ⟨p, hp, hpk⟩ := List.mem_map.mp hx
    exact hk (List.any_eq_true.mpr ⟨p, hp, by simp [hpk]⟩)

theorem bundle_keys_nodup (off : Int) (dfs : List DataFrame) :
    ∀ acc b, (acc.map Prod.fst).Nodup →
      List.foldlM (bundleStep off) acc dfs = some b → (b.map Prod.fst).Nodup := by
  induction dfs with
  | nil =>
    intro acc b h hb
    simp [List.foldlM] at hb
    rwa [← hb]
  | cons d t ih =>
    intro acc b h hb
    rw [List.foldlM_cons] at hb
    cases hp : processInfluxDF d off with
    | none => simp [bundleStep, hp] at hb
    | some rr =>
      have hstep : bundleStep off acc d = some (dictInsert acc rr.idStr rr.table) := by
        simp [bundleStep, hp]
      rw [hstep] at hb
      simp only [Option.bind_eq_bind, Option.some_bind] at hb
      exact ih _ _ (dictInsert_keys_nodup _ _ _ h) hb

/-- C10: when two raw tables normalize to the same identifier, the one
processed later silently replaces the earlier one in the output bundle
(last writer wins), and in general the bundle holds one entry per
distinct identifier (its key list has no duplicates). -/
theorem C10_last_writer_wins (off : Int) :
    (∀ d1 d2 r1 r2, processInfluxDF d1 off = some r1 → processInfluxDF d2 off = some r2 →
      r1.idStr = r2.idStr → buildBundle off [d1, d2] = some [(r2.idStr, r2.table)]) ∧
    (∀ dfs b, buildBundle off dfs = some b → (b.map Prod.fst).Nodup) := by
  constructor
  · intro d1 d2 r1 r2 h1 h2 heq
    unfold buildBundle
    rw [List.foldlM_cons]
    have hs1 : bundleStep off [] d1 = some [(r1.idStr, r1.table)] := by
      simp [bundleStep, h1, dictInsert]
    rw [hs1]
    simp only [Option.bind_eq_bind, Option.some_bind]
    rw [List.foldlM_cons]
    have hs2 : bundleStep off [(r1.idStr, r1.table)] d2 = some [(r2.idStr, r2.table)] := by
      simp [bundleStep, h2, dictInsert, heq]
    rw [hs2]
    simp [List.foldlM_nil]
  · intro dfs b hb
    exact bundle_keys_nodup off dfs [] b (by simp) hb

theorem C10_last_writer_wins_witness :
    buildBundle 0 [dfTen, dfDup2] = some [("box7_P1", tblDup2)] ∧
    (([("box7_P1", tblDup2)] : List (String × DataFrame)).map Prod.fst).Nodup := by
  have hp1 : processInfluxDF dfTen 0 = some rTen := by
    simp [processInfluxDF, dfTen, rTen, tblTen, firstCell, DataFrame.getCol,
      DataFrame.dropColsChecked, DataFrame.hasCol, DataFrame.dropCols, stage2, stageErr,
      stageBaro, DataFrame.renameCol, DataFrame.mapCol, convertTime, timePipeline,
      Cell.tzConvert, Cell.tzLocalizeNone, Cell.toUnixSeconds, errWarnings, pdUnique, pyList,
      epoch_zero, pdTimedelta1s, Cell.isAware, Cell.pyStr,
      List.find?, List.filter, List.all, List.any]
  have hp2 : processInfluxDF dfDup2 0 = some rDup2 := by
    simp [processInfluxDF, dfDup2, rDup2, tblDup2, firstCell, DataFrame.getCol,
      DataFrame.dropColsChecked, DataFrame.hasCol, DataFrame.dropCols, stage2, stageErr,
      stageBaro, DataFrame.renameCol, DataFrame.mapCol, convertTime, timePipeline,
      Cell.tzConvert, Cell.tzLocalizeNone, Cell.toUnixSeconds, errWarnings, pdUnique, pyList,
      epoch_zero, pdTimedelta1s, Cell.isAware, Cell.pyStr,
      List.find?, List.filter, List.all, List.any]
  have hfirst := (C10_last_writer_wins 0).1 dfTen dfDup2 rTen rDup2 hp1 hp2 rfl
  exact ⟨hfirst, (C10_last_writer_wins 0).2 [dfTen, dfDup2] [("box7_P1", tblDup2)] hfirst⟩

end Paros
